import Mathlib

/-!
Verification of the MoonParser table-scanning core (`Parser/MoonParser.py`).

The Python source is shallowly embedded: tables are grids of optional cell
strings plus a list of column labels (as produced by `pandas.read_html`),
Python floats are modelled by `ℚ` (every literal occurring in catalog cells
is an exact decimal), Python exceptions by `Except`, and `print` diagnostics
by an explicit diagnostic list.  Each regular expression of the source is
modelled by a dedicated matcher following the engine's leftmost /
greedy-with-backtracking semantics on the pattern actually written.
-/

namespace MoonSpec

/-- Whitespace recognized by Python `str.strip()` and the regex class `\s`
(restricted to the ASCII whitespace that occurs in catalog pages). -/
def pyWhitespace (c : Char) : Bool :=
  c = ' ' || c = '\t' || c = '\n' || c = '\r' || c = '\x0b' || c = '\x0c'

/-- Python `str.strip()`. -/
def pyStrip (s : String) : String :=
  ⟨((s.toList.dropWhile pyWhitespace).reverse.dropWhile pyWhitespace).reverse⟩

/-- Substring test on character lists (Python `needle in haystack`). -/
def listInfix (needle : List Char) : List Char → Bool
  | [] => needle.isEmpty
  | c :: rest => needle.isPrefixOf (c :: rest) || listInfix needle rest

/-- Python substring containment `needle in haystack`. -/
def pyIn (needle haystack : String) : Bool :=
  listInfix needle.toList haystack.toList

/-- Python `s.replace(pat, "")` on character lists: delete the
non-overlapping occurrences of `pat`, scanning left to right (`pat` is
nonempty in every use in the source).  A positive `skip` means the scanner
is inside a matched occurrence and still has that many characters of it to
discard. -/
def removeAllAux (pat : List Char) : Nat → List Char → List Char
  | _, [] => []
  | skip + 1, _ :: rest => removeAllAux pat skip rest
  | 0, c :: rest =>
    if pat.isPrefixOf (c :: rest) && !pat.isEmpty then
      removeAllAux pat (pat.length - 1) rest
    else c :: removeAllAux pat 0 rest

/-- Python `s.replace(pat, "")`. -/
def pyReplaceEmpty (s pat : String) : String :=
  ⟨removeAllAux pat.toList 0 s.toList⟩

/-- Numeric value of a run of ASCII digits (value of a regex `\d+` group
under `int`/`float`). -/
def digitsToNat (l : List Char) : Nat :=
  l.foldl (fun n c => n * 10 + (c.toNat - 48)) 0

/-- Python `int(s)` on the decimal fragment: optional surrounding
whitespace, optional sign, one or more digits. -/
def pyInt (s : String) : Option Int :=
  let l0 := (pyStrip s).toList
  let p : Int × List Char :=
    match l0 with
    | '+' :: r => (1, r)
    | '-' :: r => (-1, r)
    | r => (1, r)
  if p.2.isEmpty || !(p.2.all Char.isDigit) then none
  else some (p.1 * (digitsToNat p.2 : Int))

/-- The optional exponent suffix of a float literal, applied to the
already-parsed mantissa (`mant * 10 ^ exp` as an exact rational). -/
def pyFloatExp (mant : ℚ) (r : List Char) : Option ℚ :=
  let e : Bool × List Char :=
    match r with
    | '+' :: t => (false, t)
    | '-' :: t => (true, t)
    | t => (false, t)
  let ed := e.2.span Char.isDigit
  if ed.1.isEmpty || !ed.2.isEmpty then none
  else if e.1 then some (mant * mkRat 1 (10 ^ digitsToNat ed.1))
  else some (mant * mkRat (Int.ofNat (10 ^ digitsToNat ed.1)) 1)

/-- Python `float(s)` on the finite decimal fragment (optionally signed
decimal literal with optional exponent); this is the shape of every point
cell a catalog page carries.  Values are exact rationals. -/
def pyFloat (s : String) : Option ℚ :=
  let l0 := (pyStrip s).toList
  let p : Bool × List Char :=
    match l0 with
    | '+' :: r => (false, r)
    | '-' :: r => (true, r)
    | r => (false, r)
  let ip := p.2.span Char.isDigit
  let q : Bool × List Char × List Char :=
    match ip.2 with
    | '.' :: r => (true, r.span Char.isDigit)
    | r => (false, [], r)
  if ip.1.isEmpty && (!q.1 || q.2.1.isEmpty) then none
  else
    let den := 10 ^ q.2.1.length
    let numAbs : Int := Int.ofNat (digitsToNat ip.1 * den + digitsToNat q.2.1)
    let mant : ℚ := mkRat (if p.1 then -numAbs else numAbs) den
    match q.2.2 with
    | [] => some mant
    | 'e' :: r => pyFloatExp mant r
    | 'E' :: r => pyFloatExp mant r
    | _ => none

/-!  Regex models.  Each matcher follows the concrete pattern of the source
(`re.match` is anchored at the start, `re.search` tries every start
position, `.` does not cross a newline, alternatives are tried left to
right, greedy quantifiers take the longest viable span). -/

/-- Anchored match of `RE_RANGE = r'(\d+(?:\.\d+)?)-(?:\.\d+)?'`: a digit
run, an optional `.digits` fraction, then a dash; yields capture group 1
(the leading number, as matched text). -/
def reRangeMatch (s : String) : Option String :=
  let l := s.toList
  let ip := l.span Char.isDigit
  if ip.1.isEmpty then none
  else
    let q : List Char × List Char :=
      match ip.2 with
      | '.' :: r =>
        let fd := r.span Char.isDigit
        if fd.1.isEmpty then (ip.1, ip.2) else (ip.1 ++ '.' :: fd.1, fd.2)
      | _ => (ip.1, ip.2)
    match q.2 with
    | '-' :: _ => some ⟨q.1⟩
    | _ => none

def LPACHOT : List Char := "לפחות".toList

/-- Anchored match of `RE_MIN = r'לפחות\s*(\d+)|(\d+)\s*לפחות'`; yields the
digits captured by whichever alternative matches (`match[1] or match[2]`
in the source). -/
def reMinMatch (s : String) : Option String :=
  let l := s.toList
  if LPACHOT.isPrefixOf l then
    let r := (l.drop LPACHOT.length).dropWhile pyWhitespace
    let d := r.span Char.isDigit
    if d.1.isEmpty then none else some ⟨d.1⟩
  else
    let d := l.span Char.isDigit
    if d.1.isEmpty then none
    else if LPACHOT.isPrefixOf (d.2.dropWhile pyWhitespace) then some ⟨d.1⟩ else none

/-- One start position of `MIN_POINTS_PATTERN = r'לפחות\s*(\d+)\s*נ'`. -/
def minPointsAt (l : List Char) : Option Nat :=
  if LPACHOT.isPrefixOf l then
    let r := (l.drop LPACHOT.length).dropWhile pyWhitespace
    let d := r.span Char.isDigit
    if d.1.isEmpty then none
    else
      match d.2.dropWhile pyWhitespace with
      | 'נ' :: _ => some (digitsToNat d.1)
      | _ => none
  else none

/-- `MIN_POINTS_PATTERN.search`: leftmost start position that matches. -/
def searchMinPoints : List Char → Option Nat
  | [] => none
  | c :: rest =>
    match minPointsAt (c :: rest) with
    | some n => some n
    | none => searchMinPoints rest

def YESH_LILMOD : List Char := "יש ללמוד".toList
def MITOKH_LIT : List Char := " מתוך רשימת קורסים".toList

/-- A viable capture position for `MIN_COURSES_PATTERN`: one digit (the
greedy `.*` has absorbed any digits before it) followed by the closing
literal. -/
def mcHere : List Char → Option Nat
  | [] => none
  | c :: rest =>
    if c.isDigit && MITOKH_LIT.isPrefixOf rest then some (c.toNat - 48) else none

/-- Last viable capture position inside the region reachable by `.*`
(which cannot cross a newline) — the greedy `.*` commits to it. -/
def mcBest : List Char → Option Nat
  | [] => none
  | c :: rest =>
    if c = '\n' then none
    else
      match mcBest rest with
      | some n => some n
      | none => mcHere (c :: rest)

/-- `MIN_COURSES_PATTERN = r'יש ללמוד.*(\d+) מתוך רשימת קורסים'`, searched:
the leftmost occurrence of the opening literal from which a full match
exists, with the greedy capture. -/
def searchMinCourses : List Char → Option Nat
  | [] => none
  | c :: rest =>
    if YESH_LILMOD.isPrefixOf (c :: rest) then
      match mcBest ((c :: rest).drop YESH_LILMOD.length) with
      | some n => some n
      | none => searchMinCourses rest
    else searchMinCourses rest

def MIN_ONE_LIT : List Char := "לפחות קורס 1".toList
def ET_EHAD : List Char := "את אחד".toList

/-- One start position of
`MIN_COURSES_ONE_PATTERN = r'לפחות קורס 1\s|את אחד'` (note the mandatory
trailing whitespace character in the first alternative). -/
def minOneAt (l : List Char) : Bool :=
  (MIN_ONE_LIT.isPrefixOf l &&
    (match l.drop MIN_ONE_LIT.length with
     | c :: _ => pyWhitespace c
     | [] => false)) || ET_EHAD.isPrefixOf l

/-- `MIN_COURSES_ONE_PATTERN.search` as a boolean. -/
def searchMinOne : List Char → Bool
  | [] => false
  | c :: rest => minOneAt (c :: rest) || searchMinOne rest

/-- `MAX_COURSES_ONE_PATTERN = r'אחד לכל היותר|רק קורס 1'`, searched: both
alternatives are plain literals, so this is substring containment. -/
def searchMaxOne (s : String) : Bool :=
  pyIn "אחד לכל היותר" s || pyIn "רק קורס 1" s

/-!  Data model.  `data_structures.py` is not part of the scanned sources;
the record shapes below are modelled from the spec (§3 DATA MODEL). -/

/-- Modelled from the spec: the `Semester` enum of `data_structures.py`
(not under `src/`): `{A, B, EITHER, ANNUAL, SUMMER}`. -/
inductive Semester
  | A
  | B
  | EITHER
  | ANNUAL
  | SUMMER
deriving DecidableEq, Repr

/-- Modelled from the spec: the `CourseType` enum of `data_structures.py`
(not under `src/`): `{MUST, FROM_LIST, CHOICE}`.  A Python `Enum` member is
always truthy, which the embedding reflects by treating any `some` value as
set. -/
inductive CourseType
  | MUST
  | FROM_LIST
  | CHOICE
deriving DecidableEq, Repr

/-- Modelled from the spec: the `Course` record of `data_structures.py`
(not under `src/`); field names follow §3 (`id`, `name`, `semester`,
`points`, `belongs_to_hug` as `hug_id`, `is_given_this_year`). -/
structure Course where
  id : Int
  name : String
  semester : Semester
  points : ℚ
  hug_id : Int
  is_given_this_year : Bool
deriving DecidableEq, Repr

/-- Modelled from the spec: the `CourseGroup` record of
`data_structures.py` (not under `src/`); fields follow the keyword
arguments of the constructor call in `parse_moon`. -/
structure CourseGroup where
  track : Int
  course_type : CourseType
  courses : List Int
  year : Nat
  index_in_track_year : Nat
  required_course_count : Option Nat
  required_points : Option Nat
deriving DecidableEq, Repr

/-- Modelled from the spec: the `Track` record of `data_structures.py`
(not under `src/`); six point totals plus the group list that is attached
after the scan. -/
structure Track where
  track_id : Int
  points_must : ℚ
  points_from_list : ℚ
  points_choice : ℚ
  points_complementary : ℚ
  points_corner_stones : ℚ
  points_minor : ℚ
  groups : List CourseGroup
deriving DecidableEq, Repr

/-!  Hebrew lexicons, exactly as in the source. -/

def COURSE_ID_HEB : String := "מספר הקורס"
def COURSE_NAME_HEB : String := "שם הקורס"
def POINTS_HEB : String := "נקודות זכות"
def SEMESTER_HEB : String := "סמסטר"
def MAX_YEAR_HEB : String := "עד שנה"
def IS_ELEMENTARY_HEB : String := "קורס יסוד"
def HUG_ID_HEB : String := "שיוך לחוג"

/-- The keys of `HEB_ENG_TITLES`; the dictionary renames columns to fixed
English titles, so only key membership and key positions are observable. -/
def HEB_ENG_TITLE_KEYS : List String :=
  [COURSE_ID_HEB, COURSE_NAME_HEB, POINTS_HEB, SEMESTER_HEB,
   MAX_YEAR_HEB, IS_ELEMENTARY_HEB, HUG_ID_HEB]

def YEAR_STRINGS : List (String × Nat) :=
  [("שנה א\x27", 1), ("שנה ב\x27", 2), ("שנה ג\x27", 3), ("שנה ד\x27", 4),
   ("שנה ה\x27", 5), ("שנה ו\x27", 6), ("שנה ז\x27", 7)]

def SEMESTER_STRINGS : List (String × Semester) :=
  [("א\x27", Semester.A), ("ב\x27", Semester.B), ("א\x27 או ב\x27", Semester.EITHER),
   ("קורס שנתי", Semester.ANNUAL), ("קורס קיץ", Semester.SUMMER)]

def COURSE_TYPE_STRINGS : List (String × CourseType) :=
  [("לימודי חובה", CourseType.MUST), ("לימודי חובת בחירה", CourseType.FROM_LIST),
   ("קורסי בחירה", CourseType.CHOICE)]

def IGNORABLE_TITLES : List String :=
  ["סה\x22כ נקודות חובה", "תוכנית הלימודים", "וגם", "או"]

/-- `COURSE_DETAILS_TITLES` (a Python set; order is irrelevant, it is only
used through `issubset`). -/
def COURSE_DETAILS_TITLES : List String :=
  [COURSE_NAME_HEB, COURSE_ID_HEB, POINTS_HEB, SEMESTER_HEB]

def MUST : String := "חובה"
def MUST_IN_HUG : String := "חובה בחוג"
def MUST_PROGRAMMING : String := "לימודי תכנות"
def MUST_SAFETY_LIBRARY : String := "קורס ספרייה ובטיחות"
def CHOICE_FROM_LIST : String := "חובת בחירה"
def CHOICE_IN_HUG : String := "בחירה בחוג"
def CORNER_STONES : String := "אבני פינה"
def COMPLEMENTARY : String := "לימודים משלימים"
def ADDITIONAL_HUG : String := "חוג נוסף"
def MINOR : String := "חטיבה"
def NOT_GIVEN_THIS_YEAR : String := "(לא נלמד השנה)"

/-!  Tables.  `pandas.read_html` yields DataFrames: a list of column
labels (strings where the page supplied `<th>` headers, stringified
integers otherwise) and a grid of cells; a missing cell (`NaN`) is
`none`. -/

structure Table where
  columns : List String
  rows : List (List (Option String))
deriving DecidableEq, Repr

/-- A DataFrame invariant: every row has exactly one cell per column. -/
def Table.wf (t : Table) : Prop :=
  ∀ r ∈ t.rows, r.length = t.columns.length

instance (t : Table) : Decidable t.wf :=
  decidable_of_iff (∀ r ∈ t.rows, r.length = t.columns.length) Iff.rfl

/-- `str(cell)`: a `NaN` cell prints as `"nan"`. -/
def cellStr : Option String → String
  | some s => s
  | none => "nan"

/-- `str(table.iloc[0, 0])`. -/
def cell00 (t : Table) : String :=
  cellStr ((t.rows.headD []).headD none)

/-- The values of `table.loc[0]` (first row) usable for title membership. -/
def row0Vals (t : Table) : List String :=
  (t.rows.headD []).filterMap id

/-- A single-cell marker table as produced by `read_html` (integer column
label, one cell). -/
def oneCell (txt : String) : Table :=
  ⟨["0"], [[some txt]]⟩

/-- `COURSE_DETAILS_TITLES.issubset(titles)` where `titles = table.loc[0]`. -/
def isCourseDetail (t : Table) : Bool :=
  COURSE_DETAILS_TITLES.all (fun h => h ∈ row0Vals t)

/-- `any('כ נקודות בחוג' in str(c) for c in table.columns)`. -/
def hasTrackCol (t : Table) : Bool :=
  t.columns.any (fun c => pyIn "כ נקודות בחוג" c)

/-!  `parse_course_details`.  The source renames the header row through
`HEB_ENG_TITLES` (a `KeyError` on an unknown title is an uncaught, fatal
exception), converts the semester / id / hug / points columns, and builds
one `Course` per data row.  The source performs the conversions column by
column before iterating rows; the embedding performs them row by row —
identical on success, only the identity of the first reported failure can
differ, and no claim concerns it. -/

/-- `parse_semester` (via the `SEMESTER_STRINGS` lookup on the stripped
cell; an unknown string raises `ValueError`). -/
def parse_semester (s : String) : Except String Semester :=
  match List.lookup (pyStrip s) SEMESTER_STRINGS with
  | some x => Except.ok x
  | none => Except.error ("can not parse semester from " ++ s)

/-- `parse_year` (via the `YEAR_STRINGS` lookup on the stripped cell). -/
def parse_year (s : String) : Except String Nat :=
  match List.lookup (pyStrip s) YEAR_STRINGS with
  | some y => Except.ok y
  | none => Except.error ("can not parse year from " ++ s)

/-- `parse_course_type` (via the `COURSE_TYPE_STRINGS` lookup on the
stripped cell). -/
def parse_course_type (s : String) : Except String CourseType :=
  match List.lookup (pyStrip s) COURSE_TYPE_STRINGS with
  | some c => Except.ok c
  | none => Except.error ("can not parse course course_type from " ++ s)

/-- The cell of `row` in the column whose header (first-row) cell is the
given Hebrew title — the effect of the renaming plus dict access. -/
def cellOf (hdrs row : List (Option String)) (heb : String) : Except String String :=
  match hdrs.findIdx? (fun c => c = some heb) with
  | some i =>
    match row.getD i none with
    | some s => Except.ok s
    | none => Except.error ("null cell under " ++ heb)
  | none => Except.error ("missing column " ++ heb)

/-- `int(cell)` as performed by the `astype(int)` column conversion; an
unparseable cell is a fatal conversion error. -/
def pyIntE (s : String) : Except String Int :=
  match pyInt s with
  | some v => Except.ok v
  | none => Except.error ("can not parse int from " ++ s)

/-- `float(cell)` as performed by the `astype(float)` column conversion;
an unparseable cell is a fatal conversion error. -/
def pyFloatE (s : String) : Except String ℚ :=
  match pyFloat s with
  | some v => Except.ok v
  | none => Except.error ("can not parse float from " ++ s)

/-- One data row of a course-detail table (lines 181-187 of the source):
semester through the lexicon, id and hug as ints, points as float, the
"not offered this year" annotation stripped from the name. -/
def parseCourseRow (hdrs row : List (Option String)) : Except String Course := do
  let rawName ← cellOf hdrs row COURSE_NAME_HEB
  let semS ← cellOf hdrs row SEMESTER_HEB
  let sem ← parse_semester semS
  let idS ← cellOf hdrs row COURSE_ID_HEB
  let cid ← pyIntE idS
  let hugS ← cellOf hdrs row HUG_ID_HEB
  let hug ← pyIntE hugS
  let ptsS ← cellOf hdrs row POINTS_HEB
  let pts ← pyFloatE ptsS
  let isGiven := !(pyIn NOT_GIVEN_THIS_YEAR rawName)
  let name := pyReplaceEmpty rawName NOT_GIVEN_THIS_YEAR
  pure { id := cid, name := name, semester := sem, points := pts,
         hug_id := hug, is_given_this_year := isGiven }

/-- Effectful `List.map` over `Except`, used for the row loop. -/
def mapE (f : α → Except ε β) : List α → Except ε (List β)
  | [] => Except.ok []
  | a :: as => do
    let b ← f a
    let bs ← mapE f as
    pure (b :: bs)

/-- `parse_course_details`: header renaming (fatal on an unknown header
title), then one `Course` per data row, in row order. -/
def parse_course_details (t : Table) : Except String (List Course) :=
  let hdrs := t.rows.headD []
  if hdrs.all (fun c => match c with
      | some s => decide (s ∈ HEB_ENG_TITLE_KEYS)
      | none => false) then
    mapE (parseCourseRow hdrs) (t.rows.drop 1)
  else Except.error "unknown column title"

/-!  `parse_track`.  The accumulator carries the seven category counters
(`additional_hug` is accumulated but never stored in the returned
`Track`).  Diagnostics model the active `print` of line 220 (unparseable
point cell); the fallback `print` of line 240 is commented out in the
source and therefore absent here. -/

structure TrackAcc where
  must : ℚ
  from_list : ℚ
  choice : ℚ
  corner_stones : ℚ
  complementary : ℚ
  minor : ℚ
  additional_hug : ℚ
deriving DecidableEq, Repr

def TrackAcc.init : TrackAcc := ⟨0, 0, 0, 0, 0, 0, 0⟩

/-- The point-cell parsing chain of lines 212-222: `float` first, then
`RE_RANGE.match or RE_MIN.match` with `float(match[1] or match[2])`
(the captured group is a digit run, so its `float` cannot fail). -/
def parsePointCell (raw : String) : Option ℚ :=
  match pyFloat raw with
  | some q => some q
  | none =>
    match reRangeMatch raw with
    | some g => pyFloat g
    | none =>
      match reMinMatch raw with
      | some g => pyFloat g
      | none => none

/-- `[i for i, c in enumerate(df.columns) if 'כ נקודות' in c]`. -/
def point_columns (cols : List String) : List Nat :=
  ((cols.enum).filter (fun p => pyIn "כ נקודות" p.2)).map Prod.fst

/-- The category dispatch of lines 224-241.  Note two quirks kept from the
source: `category in CHOICE_FROM_LIST` tests `category` as a SUBSTRING of
the constant, and an unrecognized label falls back to `must` silently (the
diagnostic on line 240 is commented out in the source). -/
def applyCategory (category : String) (acc : TrackAcc) (points : ℚ) : TrackAcc :=
  if category ∈ [MUST, MUST_IN_HUG, MUST_PROGRAMMING, MUST_SAFETY_LIBRARY]
      || pyIn MUST category then
    { acc with must := acc.must + points }
  else if pyIn category CHOICE_FROM_LIST || pyIn "במסגרת האשכול" category then
    { acc with from_list := acc.from_list + points }
  else if category = CHOICE_IN_HUG then
    { acc with choice := acc.choice + points }
  else if pyIn CORNER_STONES category then
    { acc with corner_stones := acc.corner_stones + points }
  else if category = COMPLEMENTARY then
    { acc with complementary := acc.complementary + points }
  else if category = MINOR then
    { acc with minor := acc.minor + points }
  else if category = ADDITIONAL_HUG then
    { acc with additional_hug := acc.additional_hug + points }
  else
    { acc with must := acc.must + points }

/-- One point cell of a data row (lines 208-241): skip falsy/null cells,
parse (appending a diagnostic when unparseable), then dispatch on the
category label. -/
def trackCell (category : String) (st : TrackAcc × List (String × String)) :
    Option String → TrackAcc × List (String × String)
  | none => st
  | some rp =>
    if rp = "" then st
    else
      match parsePointCell rp with
      | none => (st.1, st.2 ++ [(category, rp)])
      | some points => (applyCategory category st.1 points, st.2)

/-- One data row of the track-summary table (lines 200-241): rows whose
category contains the grand-total marker are skipped; otherwise every
point-column cell is folded in. -/
def trackRow (pcols : List Nat) (st : TrackAcc × List (String × String))
    (row : List (Option String)) : TrackAcc × List (String × String) :=
  let category := cellStr (row.headD none)
  if pyIn "סה\x22כ" category then st
  else (pcols.map (fun i => row.getD i none)).foldl (trackCell category) st

/-- `parse_track`: fold the rows, then build the `Track` from six of the
seven counters (`additional_hug` is dropped).  The second component is the
list of emitted diagnostics. -/
def parse_track (t : Table) (track_id : Int) : Track × List (String × String) :=
  let st := t.rows.foldl (trackRow (point_columns t.columns)) (TrackAcc.init, [])
  ({ track_id := track_id,
     points_must := st.1.must,
     points_from_list := st.1.from_list,
     points_choice := st.1.choice,
     points_complementary := st.1.complementary,
     points_corner_stones := st.1.corner_stones,
     points_minor := st.1.minor,
     groups := [] }, st.2)

/-!  `parse_moon`: the stateful scan over the table sequence. -/

instance instDecEqExcept {ε α : Type} [DecidableEq ε] [DecidableEq α] :
    DecidableEq (Except ε α) := fun a b =>
  match a, b with
  | Except.error e, Except.error f =>
    if h : e = f then isTrue (by rw [h])
    else isFalse (by intro hc; injection hc; exact h (by assumption))
  | Except.ok x, Except.ok y =>
    if h : x = y then isTrue (by rw [h])
    else isFalse (by intro hc; injection hc; exact h (by assumption))
  | Except.error _, Except.ok _ => isFalse (by intro hc; exact Except.noConfusion hc)
  | Except.ok _, Except.error _ => isFalse (by intro hc; exact Except.noConfusion hc)

/-- The fatal conditions raised by the scan (`ValueError` twice,
`NotImplementedError`, and an uncaught exception out of
`parse_course_details`). -/
inductive MoonError
  | duplicateTrack
  | detailsBeforeContext
  | unimplementedMaxCourses
  | courseParse (msg : String)
deriving DecidableEq, Repr

/-- The mutable locals of `parse_moon` (lines 257-266). -/
structure PState where
  current_year : Option Nat := none
  current_type : Option CourseType := none
  min_points : Option Nat := none
  min_courses : Option Nat := none
  max_courses : Option Nat := none
  track : Option Track := none
  index_in_track_year : Nat := 0
  courses : List Course := []
  groups : List CourseGroup := []
  previous_type : Option CourseType := none
deriving DecidableEq, Repr

def initState : PState := {}

/-- Python truthiness of the optional-integer thresholds: `not x` holds
for `None` and for `0`. -/
def natOptFalsy (o : Option Nat) : Bool :=
  o = none || o = some 0

/-- Classification of a single-cell table's stripped text, in the priority
order of lines 273-313.  `minCourses` covers both the counted pattern and
the fixed-to-1 pattern, keeping the source's order. -/
inductive MarkerKind
  | ignorable (continuation : Bool)
  | year (y : Nat)
  | ctype (c : CourseType)
  | minPoints (n : Nat)
  | minCourses (n : Nat)
  | maxOne
  | unrecognized
deriving DecidableEq, Repr

def classifyMarker (txt : String) : MarkerKind :=
  if txt ∈ IGNORABLE_TITLES || pyIn "סה\x22כ" txt then
    MarkerKind.ignorable (txt = "וגם" || txt = "או")
  else
    match List.lookup txt YEAR_STRINGS with
    | some y => MarkerKind.year y
    | none =>
      match List.lookup txt COURSE_TYPE_STRINGS with
      | some c => MarkerKind.ctype c
      | none =>
        match searchMinPoints txt.toList with
        | some n => MarkerKind.minPoints n
        | none =>
          match searchMinCourses txt.toList with
          | some n => MarkerKind.minCourses n
          | none =>
            if searchMinOne txt.toList then MarkerKind.minCourses 1
            else if searchMaxOne txt then MarkerKind.maxOne
            else MarkerKind.unrecognized

/-- The year-marker transition (lines 279-286): reset the per-year index
and set the year when the year is new, else increment the index. -/
def yearUpdate (s : PState) (y : Nat) : PState :=
  if s.current_year = none ∨ some y ≠ s.current_year then
    { s with index_in_track_year := 0, current_year := some y }
  else
    { s with index_in_track_year := s.index_in_track_year + 1 }

/-- The track-summary dispatch (lines 317-324): fatal on a second summary
table, otherwise store the parsed `Track` (diagnostics are printed and
dropped). -/
def trackStep (tid : Int) (s : PState) (t : Table) : Except MoonError PState :=
  if hasTrackCol t then
    if s.track.isSome then Except.error MoonError.duplicateTrack
    else Except.ok { s with track := some (parse_track t tid).1 }
  else Except.ok s

/-- The course-detail dispatch and the trailing at-most check (lines
326-352).  The guard mirrors `all((current_year, current_type))`: a year
of `None`/`0` is falsy, a set enum member is always truthy. -/
def detailStep (tid : Int) (s : PState) (t : Table) (txt : String) :
    Except MoonError PState :=
  if isCourseDetail t then
    match s.current_year, s.current_type with
    | some (cy + 1), some ct =>
      match parse_course_details t with
      | Except.error e => Except.error (MoonError.courseParse e)
      | Except.ok temp =>
        if temp.isEmpty then Except.ok s
        else
          Except.ok { s with
            courses := s.courses ++ temp,
            groups := s.groups ++
              [{ track := tid, course_type := ct, courses := temp.map (fun c => c.id),
                 year := cy + 1, index_in_track_year := s.index_in_track_year,
                 required_course_count := s.min_courses,
                 required_points := s.min_points }],
            previous_type := some ct,
            min_courses := none, min_points := none, current_type := none }
    | _, _ => Except.error MoonError.detailsBeforeContext
  else
    if pyIn "לכל היותר" txt && natOptFalsy s.max_courses then
      Except.error MoonError.unimplementedMaxCourses
    else Except.ok s

/-- The non-marker part of one loop iteration: the track-summary dispatch
feeds the course-detail dispatch. -/
def common (tid : Int) (s : PState) (t : Table) (txt : String) :
    Except MoonError PState :=
  match trackStep tid s t with
  | Except.error e => Except.error e
  | Except.ok s1 => detailStep tid s1 t txt

/-- One iteration of the loop of lines 268-352 over one table. -/
def step (tid : Int) (s : PState) (t : Table) : Except MoonError PState :=
  let txt := pyStrip (cell00 t)
  if t.rows.length = 1 ∧ t.columns.length = 1 then
    match classifyMarker txt with
    | MarkerKind.ignorable cont =>
      Except.ok (if cont then { s with current_type := s.previous_type } else s)
    | MarkerKind.year y => Except.ok (yearUpdate s y)
    | MarkerKind.ctype c => Except.ok { s with current_type := some c }
    | MarkerKind.minPoints n => Except.ok { s with min_points := some n }
    | MarkerKind.minCourses n => Except.ok { s with min_courses := some n }
    | MarkerKind.maxOne => Except.ok { s with max_courses := some 1 }
    | MarkerKind.unrecognized => common tid s t txt
  else common tid s t txt

/-- The whole loop. -/
def runTables (tid : Int) (s : PState) : List Table → Except MoonError PState
  | [] => Except.ok s
  | t :: ts =>
    match step tid s t with
    | Except.error e => Except.error e
    | Except.ok s2 => runTables tid s2 ts

/-- `parse_moon`: run the scan from the initial state, then attach the
group list to the track when one was produced (lines 353-356). -/
def parse_moon (tables : List Table) (tid : Int) :
    Except MoonError (Option Track × List Course × List CourseGroup) :=
  match runTables tid initState tables with
  | Except.error e => Except.error e
  | Except.ok s =>
    Except.ok (s.track.map (fun tr => { tr with groups := s.groups }), s.courses, s.groups)

/-- The state reached by a run from the initial state, when it succeeds. -/
def stateAfter (tid : Int) (ts : List Table) : Option PState :=
  match runTables tid initState ts with
  | Except.ok s => some s
  | Except.error _ => none

/-!  Derived notions used to state the claims. -/

/-- Overwrite only the `max_courses` field. -/
def setMax (s : PState) (m : Option Nat) : PState := { s with max_courses := m }

/-- `ds'` is `ds` with extra at-most-one marker tables (the two marker
texts recognized by `MAX_COURSES_ONE_PATTERN`) inserted anywhere. -/
inductive InsertedAtMost : List Table → List Table → Prop
  | nil : InsertedAtMost [] []
  | keep (t : Table) {ds ds' : List Table} :
      InsertedAtMost ds ds' → InsertedAtMost (t :: ds) (t :: ds')
  | ins (txt : String) {ds ds' : List Table} :
      txt = "אחד לכל היותר" ∨ txt = "רק קורס 1" →
      InsertedAtMost ds ds' → InsertedAtMost ds (oneCell txt :: ds')

/-- `rs'` is `rs` with extra rows whose category cell is exactly the
additional-hug label inserted anywhere. -/
inductive InsertedHugRows :
    List (List (Option String)) → List (List (Option String)) → Prop
  | nil : InsertedHugRows [] []
  | keep (r : List (Option String)) {rs rs'} :
      InsertedHugRows rs rs' → InsertedHugRows (r :: rs) (r :: rs')
  | ins (r : List (Option String)) {rs rs'} :
      cellStr (r.headD none) = ADDITIONAL_HUG →
      InsertedHugRows rs rs' → InsertedHugRows rs (r :: rs')

/-- The six point totals a `Track` is built from (everything except the
dropped `additional_hug` counter). -/
def sixOf (a : TrackAcc) : ℚ × ℚ × ℚ × ℚ × ℚ × ℚ :=
  (a.must, a.from_list, a.choice, a.corner_stones, a.complementary, a.minor)

/-- The non-empty course list a course-detail table contributes to the
outputs (none when the table is not course-detail, fails to parse, or
yields no courses). -/
def detailBlock (t : Table) : Option (List Course) :=
  if isCourseDetail t then
    match parse_course_details t with
    | Except.ok cs => if cs.isEmpty then none else some cs
    | Except.error _ => none
  else none

def detailBlocks (ts : List Table) : List (List Course) :=
  ts.filterMap detailBlock

/-!  Concrete documents used by counterexamples and witnesses. -/

def yearOneTable : Table := oneCell "שנה א\x27"
def yearTwoTable : Table := oneCell "שנה ב\x27"
def mustTypeTable : Table := oneCell "לימודי חובה"
def atMostOneTable : Table := oneCell "אחד לכל היותר"
def gibberishAtMostTable : Table := oneCell "דרוש לכל היותר"

def sampleHdrs : List (Option String) :=
  [some COURSE_NAME_HEB, some COURSE_ID_HEB, some POINTS_HEB,
   some SEMESTER_HEB, some HUG_ID_HEB]

def sampleRow : List (Option String) :=
  [some "תכנות (לא נלמד השנה)", some "101", some "3.0", some "א\x27", some "12"]

def sampleDetailTable : Table :=
  ⟨["0", "1", "2", "3", "4"], [sampleHdrs, sampleRow]⟩

/-- A track-summary table with one data row carrying an unknown category
label (spec §8's fallback example). -/
def unknownCategoryTable : Table :=
  ⟨["c0", "סה\x22כ נקודות בחוג"], [[some "completely unknown label", some "5"]]⟩

/-- A track-summary table with one corner-stones data row carrying a
range-valued point cell (spec §8's range example). -/
def cornerStonesTable : Table :=
  ⟨["c0", "סה\x22כ נקודות בחוג"], [[some "אבני פינה סמינר מחקר", some "3-4"]]⟩

/-- A data row whose category is exactly the additional-hug label. -/
def hugRowSample : List (Option String) := [some "חוג נוסף", some "7"]

/-- A well-formed single-cell table whose column label carries the
track-summary marker substring: its cell text falls through every marker
pattern, but the track-summary check of line 317 (which runs for every
table shape) still consumes it and stores a parsed `Track`. -/
def trackColCellTable : Table :=
  ⟨["סה\x22כ נקודות בחוג"], [[some "גיבריש"]]⟩

/-- The course extracted from `sampleRow` (annotation stripped, marked as
not offered this year). -/
def sampleCourse : Course :=
  { id := 101, name := "תכנות ", semester := Semester.A, points := 3,
    hug_id := 12, is_given_this_year := false }

/-- The group emitted for `sampleDetailTable` under year 1 / type MUST on
track 7. -/
def sampleGroup : CourseGroup :=
  { track := 7, course_type := CourseType.MUST, courses := [101], year := 1,
    index_in_track_year := 0, required_course_count := none,
    required_points := none }

/-- A state about to consume a course-detail table, with a pending
at-most-one threshold. -/
def beforeDetailState : PState :=
  { current_year := some 1, current_type := some CourseType.MUST,
    max_courses := some 1 }

/-- The state `beforeDetailState` reaches after `sampleDetailTable` on
track 7. -/
def afterDetailState : PState :=
  { current_year := some 1, current_type := none, max_courses := some 1,
    courses := [sampleCourse], groups := [sampleGroup],
    previous_type := some CourseType.MUST }

/-- A minimal full document: year marker, type marker, one course-detail
table. -/
def sampleDoc : List Table := [yearOneTable, mustTypeTable, sampleDetailTable]

/-!  Helper lemmas. -/

theorem removeAllAux_eq_of_no_match (pat : List Char) :
    ∀ l, listInfix pat l = false → removeAllAux pat 0 l = l := by
  intro l
  induction l with
  | nil => intro _; rfl
  | cons c rest ih =>
    intro h
    rw [listInfix] at h
    simp only [Bool.or_eq_false_iff] at h
    simp only [removeAllAux]
    rw [h.1]
    simp [ih h.2]

/-- A string not containing the pattern is unchanged by `replace`. -/
theorem pyReplaceEmpty_eq_of_not_in (s pat : String) (h : pyIn pat s = false) :
    pyReplaceEmpty s pat = s := by
  unfold pyIn at h
  unfold pyReplaceEmpty
  rw [removeAllAux_eq_of_no_match _ _ h]
  cases s
  rfl

theorem lookup_mem {α β : Type} [BEq α] [LawfulBEq α] {a : α} {b : β} :
    ∀ {l : List (α × β)}, List.lookup a l = some b → (a, b) ∈ l := by
  intro l
  induction l with
  | nil => intro h; simp [List.lookup] at h
  | cons p rest ih =>
    intro h
    obtain ⟨k, v⟩ := p
    rw [List.lookup_cons] at h
    rcases hk : a == k with _ | _
    · rw [hk] at h
      exact List.mem_cons_of_mem _ (ih h)
    · rw [hk] at h
      have hak : a = k := by simpa using hk
      have hbv : b = v := by simpa using h.symm
      subst hak; subst hbv
      exact List.mem_cons_self _ _

theorem classifyMarker_year {txt : String} {y : Nat}
    (h : List.lookup txt YEAR_STRINGS = some y) :
    classifyMarker txt = MarkerKind.year y := by
  have hm := lookup_mem h
  simp only [YEAR_STRINGS, List.mem_cons, List.not_mem_nil, or_false,
    Prod.mk.injEq] at hm
  rcases hm with ⟨rfl, rfl⟩ | ⟨rfl, rfl⟩ | ⟨rfl, rfl⟩ | ⟨rfl, rfl⟩ |
    ⟨rfl, rfl⟩ | ⟨rfl, rfl⟩ | ⟨rfl, rfl⟩ <;> decide

/-- One loop iteration on a single-cell table is the marker dispatch. -/
theorem step_marker (tid : Int) (s : PState) (t : Table)
    (h1 : t.rows.length = 1) (h2 : t.columns.length = 1) :
    step tid s t =
      match classifyMarker (pyStrip (cell00 t)) with
      | MarkerKind.ignorable cont =>
        Except.ok (if cont then { s with current_type := s.previous_type } else s)
      | MarkerKind.year y => Except.ok (yearUpdate s y)
      | MarkerKind.ctype c => Except.ok { s with current_type := some c }
      | MarkerKind.minPoints n => Except.ok { s with min_points := some n }
      | MarkerKind.minCourses n => Except.ok { s with min_courses := some n }
      | MarkerKind.maxOne => Except.ok { s with max_courses := some 1 }
      | MarkerKind.unrecognized => common tid s t (pyStrip (cell00 t)) := by
  unfold step
  rw [if_pos ⟨h1, h2⟩]

/-- One loop iteration on a table that is not single-cell is the common
(track-summary / course-detail / trailing-check) dispatch. -/
theorem step_common (tid : Int) (s : PState) (t : Table)
    (h : ¬(t.rows.length = 1 ∧ t.columns.length = 1)) :
    step tid s t = common tid s t (pyStrip (cell00 t)) := by
  unfold step
  rw [if_neg h]

/-- A well-formed single-cell table cannot satisfy the course-detail
title test (four distinct titles cannot sit in a one-cell row). -/
theorem not_detail_of_single (t : Table) (h1 : t.rows.length = 1)
    (h2 : t.columns.length = 1) (hw : Table.wf t) : isCourseDetail t = false := by
  rcases hrows : t.rows with _ | ⟨r, rest⟩
  · rw [hrows] at h1; simp at h1
  · have hrest : rest = [] := by
      rw [hrows] at h1; simpa using h1
    subst hrest
    have hr : r.length = 1 := by
      have := hw r (by rw [hrows]; exact List.mem_cons_self _ _)
      omega
    rcases hc : r with _ | ⟨c, rtail⟩
    · rw [hc] at hr; simp at hr
    · have htail : rtail = [] := by rw [hc] at hr; simpa using hr
      subst htail
      rw [Bool.eq_false_iff]
      intro hall
      unfold isCourseDetail at hall
      rw [List.all_eq_true] at hall
      have ha := hall COURSE_NAME_HEB (by decide)
      have hb := hall COURSE_ID_HEB (by decide)
      unfold row0Vals at ha hb
      rw [hrows, hc] at ha hb
      rcases c with _ | v
      · simp at ha
      · simp at ha hb
        rw [← hb] at ha
        exact absurd ha (by decide)

theorem trackStep_ok {tid : Int} {s : PState} {t : Table} {s1 : PState}
    (h : trackStep tid s t = Except.ok s1) :
    s1 = s ∨ s1 = { s with track := some (parse_track t tid).1 } := by
  unfold trackStep at h
  split at h
  · split at h
    · simp at h
    · injection h with h
      exact Or.inr h.symm
  · injection h with h
    exact Or.inl h.symm

theorem detailStep_ok {tid : Int} {s : PState} {t : Table} {txt : String} {u : PState}
    (h : detailStep tid s t txt = Except.ok u) :
    (u = s ∧ detailBlock t = none) ∨
    (∃ cy ct temp,
      s.current_year = some (cy + 1) ∧ s.current_type = some ct ∧
      detailBlock t = some temp ∧
      u = { s with
        courses := s.courses ++ temp,
        groups := s.groups ++
          [{ track := tid, course_type := ct, courses := temp.map (fun c => c.id),
             year := cy + 1, index_in_track_year := s.index_in_track_year,
             required_course_count := s.min_courses,
             required_points := s.min_points }],
        previous_type := some ct, min_courses := none, min_points := none,
        current_type := none }) := by
  unfold detailStep at h
  split at h
  case isTrue hd =>
    split at h
    case h_2 => simp at h
    case h_1 cy ct hy hct =>
      split at h
      case h_1 e hp => simp at h
      case h_2 temp hp =>
        split at h
        case isTrue hemp =>
          injection h with h
          refine Or.inl ⟨h.symm, ?_⟩
          unfold detailBlock
          rw [hd, hp]
          simp [hemp]
        case isFalse hemp =>
          injection h with h
          refine Or.inr ⟨cy, ct, temp, hy, hct, ?_, h.symm⟩
          unfold detailBlock
          rw [hd, hp]
          simp [hemp]
  case isFalse hd =>
    split at h
    case isTrue => simp at h
    case isFalse =>
      injection h with h
      refine Or.inl ⟨h.symm, ?_⟩
      unfold detailBlock
      rw [if_neg hd]

theorem common_ok_cases {tid : Int} {s : PState} {t : Table} {txt : String} {u : PState}
    (h : common tid s t txt = Except.ok u) :
    (u.courses = s.courses ∧ u.groups = s.groups ∧ detailBlock t = none) ∨
    (∃ cy ct temp,
      s.current_year = some (cy + 1) ∧ s.current_type = some ct ∧
      detailBlock t = some temp ∧
      u.courses = s.courses ++ temp ∧
      u.groups = s.groups ++
        [{ track := tid, course_type := ct, courses := temp.map (fun c => c.id),
           year := cy + 1, index_in_track_year := s.index_in_track_year,
           required_course_count := s.min_courses, required_points := s.min_points }] ∧
      u.min_points = none ∧ u.min_courses = none ∧ u.current_type = none ∧
      u.previous_type = some ct ∧ u.max_courses = s.max_courses ∧
      u.index_in_track_year = s.index_in_track_year ∧
      u.current_year = s.current_year) := by
  unfold common at h
  rcases htr : trackStep tid s t with e | s1
  · rw [htr] at h; simp at h
  · rw [htr] at h
    rcases trackStep_ok htr with rfl | hs1
    · rcases detailStep_ok h with ⟨rfl, hdb⟩ | ⟨cy, ct, temp, hy, hct, hdb, rfl⟩
      · exact Or.inl ⟨rfl, rfl, hdb⟩
      · exact Or.inr ⟨cy, ct, temp, hy, hct, hdb, rfl, rfl, rfl, rfl, rfl, rfl, rfl, rfl, rfl⟩
    · subst hs1
      rcases detailStep_ok h with ⟨rfl, hdb⟩ | ⟨cy, ct, temp, hy, hct, hdb, rfl⟩
      · exact Or.inl ⟨rfl, rfl, hdb⟩
      · exact Or.inr ⟨cy, ct, temp, hy, hct, hdb, rfl, rfl, rfl, rfl, rfl, rfl, rfl, rfl, rfl⟩

theorem step_ok_cases {tid : Int} {s : PState} {t : Table} {u : PState}
    (h : step tid s t = Except.ok u) :
    (u.courses = s.courses ∧ u.groups = s.groups ∧
      (Table.wf t → detailBlock t = none)) ∨
    (∃ cy ct temp,
      s.current_year = some (cy + 1) ∧ s.current_type = some ct ∧
      detailBlock t = some temp ∧
      u.courses = s.courses ++ temp ∧
      u.groups = s.groups ++
        [{ track := tid, course_type := ct, courses := temp.map (fun c => c.id),
           year := cy + 1, index_in_track_year := s.index_in_track_year,
           required_course_count := s.min_courses, required_points := s.min_points }] ∧
      u.min_points = none ∧ u.min_courses = none ∧ u.current_type = none ∧
      u.previous_type = some ct ∧ u.max_courses = s.max_courses ∧
      u.index_in_track_year = s.index_in_track_year ∧
      u.current_year = s.current_year) := by
  by_cases hsh : t.rows.length = 1 ∧ t.columns.length = 1
  · have hnd : Table.wf t → detailBlock t = none := by
      intro hw
      unfold detailBlock
      rw [not_detail_of_single t hsh.1 hsh.2 hw]
      simp
    rw [step_marker tid s t hsh.1 hsh.2] at h
    rcases hmk : classifyMarker (pyStrip (cell00 t)) with cont | y | c | n | n | _ | _ <;>
        rw [hmk] at h
    · rcases cont with _ | _
      · simp only [Bool.false_eq_true, if_false] at h
        injection h with h
        subst h
        exact Or.inl ⟨rfl, rfl, hnd⟩
      · simp only [if_true] at h
        injection h with h
        subst h
        exact Or.inl ⟨rfl, rfl, hnd⟩
    · injection h with h
      subst h
      left
      unfold yearUpdate
      split <;> exact ⟨rfl, rfl, hnd⟩
    · injection h with h
      subst h
      exact Or.inl ⟨rfl, rfl, hnd⟩
    · injection h with h
      subst h
      exact Or.inl ⟨rfl, rfl, hnd⟩
    · injection h with h
      subst h
      exact Or.inl ⟨rfl, rfl, hnd⟩
    · injection h with h
      subst h
      exact Or.inl ⟨rfl, rfl, hnd⟩
    · rcases common_ok_cases h with ⟨hc, hg, hdb⟩ | hr
      · exact Or.inl ⟨hc, hg, fun _ => hdb⟩
      · exact Or.inr hr
  · rw [step_common tid s t hsh] at h
    rcases common_ok_cases h with ⟨hc, hg, hdb⟩ | hr
    · exact Or.inl ⟨hc, hg, fun _ => hdb⟩
    · exact Or.inr hr

theorem runTables_append (tid : Int) (s : PState) (l1 l2 : List Table) :
    runTables tid s (l1 ++ l2) =
      match runTables tid s l1 with
      | Except.ok u => runTables tid u l2
      | Except.error e => Except.error e := by
  induction l1 generalizing s with
  | nil => simp [runTables]
  | cons t ts ih =>
    simp only [List.cons_append, runTables]
    rcases step tid s t with e | s2
    · rfl
    · exact ih s2

theorem runTables_cons_ok {tid : Int} {s : PState} {t : Table} {ts : List Table}
    {s2 : PState} (hst : step tid s t = Except.ok s2) :
    runTables tid s (t :: ts) = runTables tid s2 ts := by
  rw [runTables, hst]

theorem runTables_cons_err {tid : Int} {s : PState} {t : Table} {ts : List Table}
    {e : MoonError} (hst : step tid s t = Except.error e) :
    runTables tid s (t :: ts) = Except.error e := by
  rw [runTables, hst]

theorem parse_moon_eq_ok {ts : List Table} {tid : Int} {u : PState}
    (h : runTables tid initState ts = Except.ok u) :
    parse_moon ts tid =
      Except.ok (u.track.map (fun tr => { tr with groups := u.groups }),
        u.courses, u.groups) := by
  unfold parse_moon
  rw [h]

/-!  Simulation lemmas: the scan ignores `max_courses` except for the
unimplemented-at-most fatal check, so two states differing only there run
in lockstep as long as both runs stay fatal-error-free. -/

theorem trackStep_setMax_ok {tid : Int} {s : PState} {t : Table} {s1 : PState}
    (h : trackStep tid s t = Except.ok s1) (m : Option Nat) :
    trackStep tid (setMax s m) t = Except.ok (setMax s1 m) := by
  obtain ⟨cy0, ct0, mp0, mc0, mx0, tr0, idx0, cs0, gs0, pt0⟩ := s
  unfold trackStep at h ⊢
  dsimp only [setMax] at h ⊢
  rcases htc : hasTrackCol t with _ | _
  · simp only [htc, Bool.false_eq_true, if_false] at h ⊢
    injection h with h
    subst h
    rfl
  · simp only [htc, if_true] at h ⊢
    rcases hts : tr0 with _ | tr
    · subst hts
      simp only [Option.isSome_none, Bool.false_eq_true, if_false] at h ⊢
      injection h with h
      subst h
      rfl
    · subst hts
      simp only [Option.isSome_some, if_true] at h
      simp at h

theorem detailStep_setMax {tid : Int} {s : PState} {t : Table} {txt : String}
    {m : Option Nat} {u u' : PState}
    (h : detailStep tid s t txt = Except.ok u)
    (h' : detailStep tid (setMax s m) t txt = Except.ok u') :
    u' = setMax u m := by
  obtain ⟨cy0, ct0, mp0, mc0, mx0, tr0, idx0, cs0, gs0, pt0⟩ := s
  unfold detailStep at h h'
  dsimp only [setMax] at h h'
  split at h
  case isTrue hd =>
    rw [if_pos hd] at h'
    split at h
    case h_2 x y hnone => simp at h
    case h_1 o1 o2 n c =>
      simp only [] at h'
      split at h
      case h_1 e hp => simp at h
      case h_2 temp hp =>
        rw [hp] at h'
        simp only [] at h'
        split at h
        case isTrue hemp =>
          rw [if_pos hemp] at h'
          injection h with h
          injection h' with h'
          rw [← h, ← h']
          rfl
        case isFalse hemp =>
          rw [if_neg hemp] at h'
          injection h with h
          injection h' with h'
          rw [← h, ← h']
          rfl
  case isFalse hd =>
    rw [if_neg hd] at h'
    split at h
    case isTrue => simp at h
    case isFalse =>
      split at h'
      case isTrue => simp at h'
      case isFalse =>
        injection h with h
        injection h' with h'
        rw [← h, ← h']
        rfl

theorem common_setMax {tid : Int} {s : PState} {t : Table} {txt : String}
    {m : Option Nat} {u u' : PState}
    (h : common tid s t txt = Except.ok u)
    (h' : common tid (setMax s m) t txt = Except.ok u') :
    u' = setMax u m := by
  unfold common at h h'
  rcases htr : trackStep tid s t with e | s1
  · rw [htr] at h; simp at h
  · rw [htr] at h
    rw [trackStep_setMax_ok htr m] at h'
    exact detailStep_setMax h h'

theorem yearUpdate_setMax (s : PState) (m : Option Nat) (y : Nat) :
    yearUpdate (setMax s m) y = setMax (yearUpdate s y) m := by
  unfold yearUpdate
  simp only [setMax]
  split
  case isTrue hc => rfl
  case isFalse hc => rfl

theorem step_setMax {tid : Int} {s : PState} {t : Table} {m : Option Nat}
    {u u' : PState}
    (h : step tid s t = Except.ok u) (h' : step tid (setMax s m) t = Except.ok u') :
    ∃ m2, u' = setMax u m2 := by
  by_cases hsh : t.rows.length = 1 ∧ t.columns.length = 1
  · rw [step_marker tid s t hsh.1 hsh.2] at h
    rw [step_marker tid (setMax s m) t hsh.1 hsh.2] at h'
    rcases hmk : classifyMarker (pyStrip (cell00 t)) with cont | y | c | n | n | _ | _ <;>
        rw [hmk] at h h'
    · refine ⟨m, ?_⟩
      rcases cont with _ | _
      · simp only [Bool.false_eq_true, if_false] at h h'
        injection h with h
        injection h' with h'
        rw [← h, ← h']
      · simp only [if_true] at h h'
        injection h with h
        injection h' with h'
        rw [← h, ← h']
        rfl
    · refine ⟨m, ?_⟩
      injection h with h
      injection h' with h'
      rw [← h, ← h']
      exact yearUpdate_setMax s m y
    · refine ⟨m, ?_⟩
      injection h with h
      injection h' with h'
      rw [← h, ← h']
      rfl
    · refine ⟨m, ?_⟩
      injection h with h
      injection h' with h'
      rw [← h, ← h']
      rfl
    · refine ⟨m, ?_⟩
      injection h with h
      injection h' with h'
      rw [← h, ← h']
      rfl
    · refine ⟨some 1, ?_⟩
      injection h with h
      injection h' with h'
      rw [← h, ← h']
      rfl
    · exact ⟨m, common_setMax h h'⟩
  · rw [step_common tid s t hsh] at h
    rw [step_common tid (setMax s m) t hsh] at h'
    exact ⟨m, common_setMax h h'⟩

theorem step_atMostMarkerA (tid : Int) (s : PState) :
    step tid s (oneCell "אחד לכל היותר") =
      Except.ok { s with max_courses := some 1 } := by
  rw [step_marker _ _ _ (by rfl) (by rfl)]
  have hc : classifyMarker (pyStrip (cell00 (oneCell "אחד לכל היותר"))) =
      MarkerKind.maxOne := by decide
  rw [hc]

theorem step_atMostMarkerB (tid : Int) (s : PState) :
    step tid s (oneCell "רק קורס 1") =
      Except.ok { s with max_courses := some 1 } := by
  rw [step_marker _ _ _ (by rfl) (by rfl)]
  have hc : classifyMarker (pyStrip (cell00 (oneCell "רק קורס 1"))) =
      MarkerKind.maxOne := by decide
  rw [hc]

theorem runTables_inserted (tid : Int) {ds ds' : List Table}
    (hins : InsertedAtMost ds ds') :
    ∀ s m u u', runTables tid s ds = Except.ok u →
      runTables tid (setMax s m) ds' = Except.ok u' →
      ∃ m2, u' = setMax u m2 := by
  induction hins with
  | nil =>
    intro s m u u' h h'
    rw [runTables] at h h'
    injection h with h
    injection h' with h'
    exact ⟨m, by rw [← h', ← h]⟩
  | keep t hrec ih =>
    intro s m u u' h h'
    rcases hst : step tid s t with e | s2
    · rw [runTables_cons_err hst] at h; simp at h
    · rw [runTables_cons_ok hst] at h
      rcases hst' : step tid (setMax s m) t with e | s2'
      · rw [runTables_cons_err hst'] at h'; simp at h'
      · rw [runTables_cons_ok hst'] at h'
        obtain ⟨m2, rfl⟩ := step_setMax hst hst'
        exact ih s2 m2 u u' h h'
  | ins txt htxt hrec ih =>
    intro s m u u' h h'
    have hmarker : step tid (setMax s m) (oneCell txt) =
        Except.ok { setMax s m with max_courses := some 1 } := by
      rcases htxt with rfl | rfl
      · exact step_atMostMarkerA tid (setMax s m)
      · exact step_atMostMarkerB tid (setMax s m)
    rw [runTables_cons_ok hmarker] at h'
    exact ih s (some 1) u u' h h'

theorem mapE_ok_forall₂ {α β ε : Type} {f : α → Except ε β} :
    ∀ {l : List α} {out : List β}, mapE f l = Except.ok out →
      List.Forall₂ (fun a b => f a = Except.ok b) l out := by
  intro l
  induction l with
  | nil =>
    intro out h
    rw [mapE] at h
    injection h with h
    rw [← h]
    exact List.Forall₂.nil
  | cons a as ih =>
    intro out h
    rw [mapE] at h
    rcases hfa : f a with e | b
    · rw [hfa] at h
      simp [Bind.bind, Except.bind] at h
    · rw [hfa] at h
      simp only [Bind.bind, Except.bind] at h
      rcases hbs : mapE f as with e | bs
      · rw [hbs] at h
        simp at h
      · rw [hbs] at h
        simp only [pure, Except.pure] at h
        injection h with h
        rw [← h]
        exact List.Forall₂.cons hfa (ih hbs)

theorem forall₂_mem_left {α β : Type} {R : α → β → Prop} :
    ∀ {l1 : List α} {l2 : List β}, List.Forall₂ R l1 l2 →
      ∀ {a : α}, a ∈ l1 → ∃ b ∈ l2, R a b := by
  intro l1 l2 h
  induction h with
  | nil => intro a ha; exact absurd ha (List.not_mem_nil a)
  | @cons a' b' _ _ hR _ ih =>
    intro a ha
    rcases List.mem_cons.mp ha with rfl | ha2
    · exact ⟨b', List.mem_cons_self _ _, hR⟩
    · rcases ih ha2 with ⟨b, hb, hRb⟩
      exact ⟨b, List.mem_cons_of_mem _ hb, hRb⟩

theorem detailBlock_ne_nil {t : Table} {b : List Course}
    (h : detailBlock t = some b) : b ≠ [] := by
  unfold detailBlock at h
  split at h
  · split at h
    case h_1 cs =>
      split at h
      case isTrue => simp at h
      case isFalse hemp =>
        injection h with h
        rw [← h]
        intro hnil
        rw [hnil] at hemp
        simp at hemp
    case h_2 e => simp at h
  · simp at h

theorem runTables_blocks (tid : Int) :
    ∀ (ts : List Table) (s u : PState), (∀ t ∈ ts, Table.wf t) →
      runTables tid s ts = Except.ok u →
      ∃ gs2, u.courses = s.courses ++ (detailBlocks ts).flatten ∧
        u.groups = s.groups ++ gs2 ∧
        List.Forall₂ (fun (g : CourseGroup) (b : List Course) =>
          g.courses = b.map (fun c => c.id) ∧ b ≠ []) gs2 (detailBlocks ts) := by
  intro ts
  induction ts with
  | nil =>
    intro s u _ h
    rw [runTables] at h
    injection h with h
    subst h
    exact ⟨[], by simp [detailBlocks], by simp, List.Forall₂.nil⟩
  | cons t ts ih =>
    intro s u hwf h
    rcases hst : step tid s t with e | s2
    · rw [runTables_cons_err hst] at h
      simp at h
    · rw [runTables_cons_ok hst] at h
      have hwt : Table.wf t := hwf t (List.mem_cons_self _ _)
      have hwts : ∀ x ∈ ts, Table.wf x := fun x hx => hwf x (List.mem_cons_of_mem _ hx)
      rcases step_ok_cases hst with ⟨hc, hg, hnd⟩ |
        ⟨cy, ct, temp, hy, hct, hdb, hc, hg, _, _, _, _, _, _, _⟩
      · obtain ⟨gs2, h1, h2, h3⟩ := ih s2 u hwts h
        have hdn := hnd hwt
        refine ⟨gs2, ?_, ?_, ?_⟩
        · rw [h1, hc]
          simp [detailBlocks, List.filterMap_cons, hdn]
        · rw [h2, hg]
        · simpa [detailBlocks, List.filterMap_cons, hdn] using h3
      · obtain ⟨gs2, h1, h2, h3⟩ := ih s2 u hwts h
        have hdbs : detailBlocks (t :: ts) = temp :: detailBlocks ts := by
          simp [detailBlocks, List.filterMap_cons, hdb]
        refine ⟨CourseGroup.mk tid ct (temp.map (fun c => c.id)) (cy + 1)
            s.index_in_track_year s.min_courses s.min_points :: gs2, ?_, ?_, ?_⟩
        · rw [h1, hc, hdbs]
          simp [List.append_assoc]
        · rw [h2, hg]
          simp [List.append_assoc]
        · rw [hdbs]
          exact List.Forall₂.cons ⟨rfl, detailBlock_ne_nil hdb⟩ h3

theorem step_detail_unset_error (tid : Int) (s : PState) (t : Table)
    (hw : Table.wf t) (hd : isCourseDetail t = true)
    (hys : s.current_year = none ∨ s.current_type = none) :
    ∃ e, step tid s t = Except.error e := by
  have hsh : ¬(t.rows.length = 1 ∧ t.columns.length = 1) := by
    intro hsh
    rw [not_detail_of_single t hsh.1 hsh.2 hw] at hd
    simp at hd
  rw [step_common tid s t hsh]
  unfold common
  rcases htr : trackStep tid s t with e | s1
  · exact ⟨e, rfl⟩
  · have hy1 : s1.current_year = s.current_year := by
      rcases trackStep_ok htr with rfl | rfl <;> rfl
    have hct1 : s1.current_type = s.current_type := by
      rcases trackStep_ok htr with rfl | rfl <;> rfl
    refine ⟨MoonError.detailsBeforeContext, ?_⟩
    show detailStep tid s1 t (pyStrip (cell00 t)) = Except.error MoonError.detailsBeforeContext
    unfold detailStep
    rw [if_pos hd]
    rcases hys with hyn | hctn
    · have hyn1 : s1.current_year = none := by rw [hy1, hyn]
      rcases hc2 : s1.current_type with _ | c
      · rw [hyn1]
      · rw [hyn1]
    · have hctn1 : s1.current_type = none := by rw [hct1, hctn]
      rcases hyv : s1.current_year with _ | n
      · rw [hctn1]
      · rcases n with _ | k
        · rw [hctn1]
        · rw [hctn1]

/-!  The additional-hug accumulator is invisible in the six stored totals. -/

theorem trackCell_sixOf (cat : String) (c : Option String)
    (st st' : TrackAcc × List (String × String)) (hrel : sixOf st.1 = sixOf st'.1) :
    sixOf (trackCell cat st c).1 = sixOf (trackCell cat st' c).1 := by
  rcases c with _ | rp
  · exact hrel
  · simp only [trackCell]
    split
    · exact hrel
    · rcases hp : parsePointCell rp with _ | q
      · exact hrel
      · show sixOf (applyCategory cat st.1 q) = sixOf (applyCategory cat st'.1 q)
        simp only [sixOf, Prod.mk.injEq] at hrel
        obtain ⟨e1, e2, e3, e4, e5, e6⟩ := hrel
        unfold applyCategory
        split_ifs <;> simp [sixOf, e1, e2, e3, e4, e5, e6]

theorem trackCell_hug (st : TrackAcc × List (String × String)) (c : Option String) :
    sixOf (trackCell ADDITIONAL_HUG st c).1 = sixOf st.1 := by
  rcases c with _ | rp
  · rfl
  · simp only [trackCell]
    split
    · rfl
    · rcases hp : parsePointCell rp with _ | q
      · rfl
      · show sixOf (applyCategory ADDITIONAL_HUG st.1 q) = sixOf st.1
        unfold applyCategory
        rw [if_neg (by decide), if_neg (by decide), if_neg (by decide),
          if_neg (by decide), if_neg (by decide), if_neg (by decide),
          if_pos (by decide)]
        simp [sixOf]

theorem foldl_trackCell_rel (cat : String) :
    ∀ (cells : List (Option String)) (st st' : TrackAcc × List (String × String)),
      sixOf st.1 = sixOf st'.1 →
      sixOf (cells.foldl (trackCell cat) st).1 =
        sixOf (cells.foldl (trackCell cat) st').1 := by
  intro cells
  induction cells with
  | nil => intro st st' h; exact h
  | cons c cs ih => intro st st' h; exact ih _ _ (trackCell_sixOf cat c st st' h)

theorem foldl_trackCell_hug :
    ∀ (cells : List (Option String)) (st : TrackAcc × List (String × String)),
      sixOf (cells.foldl (trackCell ADDITIONAL_HUG) st).1 = sixOf st.1 := by
  intro cells
  induction cells with
  | nil => intro st; rfl
  | cons c cs ih =>
    intro st
    rw [List.foldl_cons, ih (trackCell ADDITIONAL_HUG st c), trackCell_hug]

theorem trackRow_rel (p : List Nat) (row : List (Option String))
    (st st' : TrackAcc × List (String × String)) (h : sixOf st.1 = sixOf st'.1) :
    sixOf (trackRow p st row).1 = sixOf (trackRow p st' row).1 := by
  simp only [trackRow]
  split
  · exact h
  · exact foldl_trackCell_rel _ _ _ _ h

theorem trackRow_hug (p : List Nat) (row : List (Option String))
    (hcat : cellStr (row.headD none) = ADDITIONAL_HUG)
    (st : TrackAcc × List (String × String)) :
    sixOf (trackRow p st row).1 = sixOf st.1 := by
  simp only [trackRow]
  rw [hcat]
  rw [if_neg (by decide)]
  exact foldl_trackCell_hug _ _

theorem foldRows_inserted (p : List Nat) {rs rs' : List (List (Option String))}
    (h : InsertedHugRows rs rs') :
    ∀ st st', sixOf st.1 = sixOf st'.1 →
      sixOf (rs.foldl (trackRow p) st).1 = sixOf (rs'.foldl (trackRow p) st').1 := by
  induction h with
  | nil => intro st st' h; exact h
  | keep r hrec ih => intro st st' h; exact ih _ _ (trackRow_rel p r _ _ h)
  | ins r hcat hrec ih =>
    intro st st' h
    rw [List.foldl_cons]
    exact ih st (trackRow p st' r) (h.trans (trackRow_hug p r hcat st').symm)

theorem parse_track_inserted_hug (tid : Int) (cols : List String)
    {rs rs' : List (List (Option String))} (h : InsertedHugRows rs rs') :
    (parse_track ⟨cols, rs⟩ tid).1 = (parse_track ⟨cols, rs'⟩ tid).1 := by
  unfold parse_track
  have hrel := foldRows_inserted (point_columns cols) h
    (TrackAcc.init, []) (TrackAcc.init, []) rfl
  simp only [sixOf, Prod.mk.injEq] at hrel
  obtain ⟨e1, e2, e3, e4, e5, e6⟩ := hrel
  simp [e1, e2, e3, e4, e5, e6]

/-!  The claims. -/

/-- C1: on a year-marker table, `parse_moon` resets `index_in_track_year`
to 0 and sets `current_year` when the year is unset or differs, and
increments `index_in_track_year` when the same year recurs; consequently a
document with year markers [1, 1, 2, 1] yields indices 0, 1, 0, 0 after the
four markers. -/
theorem C1_year_marker_behavior :
    (∀ (tid : Int) (s : PState) (t : Table) (y : Nat),
      t.rows.length = 1 → t.columns.length = 1 →
      List.lookup (pyStrip (cell00 t)) YEAR_STRINGS = some y →
      step tid s t = Except.ok
        (if s.current_year = none ∨ some y ≠ s.current_year
         then { s with index_in_track_year := 0, current_year := some y }
         else { s with index_in_track_year := s.index_in_track_year + 1 })) ∧
    (stateAfter 0 [yearOneTable]).map (fun s => s.index_in_track_year) = some 0 ∧
    (stateAfter 0 [yearOneTable, yearOneTable]).map
      (fun s => s.index_in_track_year) = some 1 ∧
    (stateAfter 0 [yearOneTable, yearOneTable, yearTwoTable]).map
      (fun s => s.index_in_track_year) = some 0 ∧
    (stateAfter 0 [yearOneTable, yearOneTable, yearTwoTable, yearOneTable]).map
      (fun s => s.index_in_track_year) = some 0 := by
  refine ⟨?_, by decide, by decide, by decide, by decide⟩
  intro tid s t y h1 h2 hlook
  rw [step_marker tid s t h1 h2, classifyMarker_year hlook]
  rfl

/-- Witness for C1 at the concrete year-3 marker from the empty state. -/
theorem C1_year_marker_behavior_witness :
    List.lookup (pyStrip (cell00 (oneCell "שנה ג\x27"))) YEAR_STRINGS = some 3 ∧
    step 0 initState (oneCell "שנה ג\x27") = Except.ok
      (if initState.current_year = none ∨ some 3 ≠ initState.current_year
       then { initState with index_in_track_year := 0, current_year := some 3 }
       else { initState with
              index_in_track_year := initState.index_in_track_year + 1 }) :=
  ⟨by decide,
   C1_year_marker_behavior.1 0 initState (oneCell "שנה ג\x27") 3 rfl rfl (by decide)⟩

/-- C2 counterexample: after a group is emitted, `max_courses` is still
set (the source never resets it), refuting "all three pending threshold
fields are reset". -/
theorem C2_counterexample :
    (stateAfter 7 [yearOneTable, mustTypeTable, atMostOneTable,
        sampleDetailTable]).map (fun s => s.groups.length) = some 1 ∧
    (stateAfter 7 [yearOneTable, mustTypeTable, atMostOneTable,
        sampleDetailTable]).map (fun s => s.max_courses) = some (some 1) :=
  ⟨by decide, by decide⟩

/-- C2 (amended): when a step emits a `CourseGroup`, the pending
`min_points` and `min_courses` are reset to absent and `current_type` is
cleared while `previous_type` becomes the type just used — but
`max_courses` is left unchanged, not reset. -/
theorem C2_thresholds_after_emit (tid : Int) (s u : PState) (t : Table)
    (h : step tid s t = Except.ok u)
    (hg : u.groups.length = s.groups.length + 1) :
    u.min_points = none ∧ u.min_courses = none ∧ u.current_type = none ∧
    u.previous_type = s.current_type ∧ u.max_courses = s.max_courses := by
  rcases step_ok_cases h with ⟨_, hgr, _⟩ |
    ⟨cy, ct, temp, hy, hct, hdb, hc, hgr, hmp, hmc, hcur, hprev, hmax, hidx, hcy2⟩
  · exfalso
    rw [hgr] at hg
    omega
  · exact ⟨hmp, hmc, hcur, by rw [hprev, hct], hmax⟩

/-- Witness for C2's amended statement at the sample detail table. -/
theorem C2_thresholds_after_emit_witness :
    afterDetailState.min_points = none ∧ afterDetailState.min_courses = none ∧
    afterDetailState.current_type = none ∧
    afterDetailState.previous_type = beforeDetailState.current_type ∧
    afterDetailState.max_courses = beforeDetailState.max_courses :=
  C2_thresholds_after_emit 7 beforeDetailState afterDetailState
    sampleDetailTable (by decide) (by decide)

/-- C3: a course-detail table reached while `current_year` or
`current_type` is unset makes the whole document scan abort with a fatal
error; no partial (Track, courses, groups) result is returned. -/
theorem C3_detail_requires_context (tid : Int) (pre post : List Table)
    (t : Table) (s : PState) (hw : Table.wf t) (hd : isCourseDetail t = true)
    (hpre : runTables tid initState pre = Except.ok s)
    (hys : s.current_year = none ∨ s.current_type = none) :
    ∃ e, parse_moon (pre ++ t :: post) tid = Except.error e := by
  obtain ⟨e, he⟩ := step_detail_unset_error tid s t hw hd hys
  refine ⟨e, ?_⟩
  have hrun : runTables tid initState (pre ++ t :: post) = Except.error e := by
    rw [runTables_append, hpre]
    show runTables tid s (t :: post) = Except.error e
    exact runTables_cons_err he
  unfold parse_moon
  rw [hrun]

/-- Witness for C3: a bare course-detail table as the whole document. -/
theorem C3_detail_requires_context_witness :
    ∃ e, parse_moon ([] ++ sampleDetailTable :: []) 0 = Except.error e :=
  C3_detail_requires_context 0 [] [] sampleDetailTable initState
    (by decide) (by decide) rfl (Or.inl rfl)

unseal Rat.add Rat.mul in
/-- C4 counterexample: the unknown-category data row does add its 5 points
to `points_must`, but the diagnostic count is 0, not 1 — the fallback
diagnostic is commented out in the source. -/
theorem C4_counterexample :
    (parse_track unknownCategoryTable 0).1.points_must = 5 ∧
    (parse_track unknownCategoryTable 0).2.length = 0 :=
  ⟨by decide, by decide⟩

/-- C4 (amended): a parsed point value of a row whose category label
matches none of the known category rules is added to `points_must`, and NO
diagnostic is emitted for it (the fallback is silent). -/
theorem C4_unknown_category_fallback (category : String)
    (st : TrackAcc × List (String × String)) (raw : String) (q : ℚ)
    (h1 : (category ∈ [MUST, MUST_IN_HUG, MUST_PROGRAMMING, MUST_SAFETY_LIBRARY]
            || pyIn MUST category) = false)
    (h2 : (pyIn category CHOICE_FROM_LIST || pyIn "במסגרת האשכול" category) = false)
    (h3 : category ≠ CHOICE_IN_HUG)
    (h4 : pyIn CORNER_STONES category = false)
    (h5 : category ≠ COMPLEMENTARY)
    (h6 : category ≠ MINOR)
    (h7 : category ≠ ADDITIONAL_HUG)
    (hraw : raw ≠ "")
    (hq : parsePointCell raw = some q) :
    trackCell category st (some raw) =
      ({ st.1 with must := st.1.must + q }, st.2) := by
  simp only [trackCell]
  rw [if_neg hraw, hq]
  show (applyCategory category st.1 q, st.2) = _
  unfold applyCategory
  rw [if_neg (by rw [h1]; exact Bool.false_ne_true),
    if_neg (by rw [h2]; exact Bool.false_ne_true), if_neg h3,
    if_neg (by rw [h4]; exact Bool.false_ne_true), if_neg h5, if_neg h6, if_neg h7]

unseal Rat.add Rat.mul in
/-- Witness for C4's amended statement on the spec's own example row. -/
theorem C4_unknown_category_fallback_witness :
    trackCell "completely unknown label" (TrackAcc.init, []) (some "5") =
      ({ TrackAcc.init with must := TrackAcc.init.must + 5 }, []) :=
  C4_unknown_category_fallback "completely unknown label" (TrackAcc.init, [])
    "5" 5 (by decide) (by decide) (by decide) (by decide) (by decide)
    (by decide) (by decide) (by decide) (by decide)

unseal Rat.add Rat.mul in
/-- C5: a point cell is parsed by direct float conversion first, then the
range pattern (taking the lower bound), then the at-least pattern, and is
otherwise skipped with one non-fatal diagnostic; in particular a
corner-stones row with cell "3-4" contributes exactly 3 points to
`points_corner_stones`. -/
theorem C5_point_cell_chain :
    (∀ raw q, pyFloat raw = some q → parsePointCell raw = some q) ∧
    (∀ raw g, pyFloat raw = none → reRangeMatch raw = some g →
      parsePointCell raw = pyFloat g) ∧
    (∀ raw g, pyFloat raw = none → reRangeMatch raw = none →
      reMinMatch raw = some g → parsePointCell raw = pyFloat g) ∧
    (∀ raw, pyFloat raw = none → reRangeMatch raw = none →
      reMinMatch raw = none → parsePointCell raw = none) ∧
    (∀ category st raw, raw ≠ "" → parsePointCell raw = none →
      trackCell category st (some raw) = (st.1, st.2 ++ [(category, raw)])) ∧
    (parse_track cornerStonesTable 0).1.points_corner_stones = 3 := by
  refine ⟨?_, ?_, ?_, ?_, ?_, by decide⟩
  · intro raw q h
    unfold parsePointCell
    rw [h]
  · intro raw g h1 h2
    unfold parsePointCell
    rw [h1, h2]
  · intro raw g h1 h2 h3
    unfold parsePointCell
    rw [h1, h2, h3]
  · intro raw h1 h2 h3
    unfold parsePointCell
    rw [h1, h2, h3]
  · intro category st raw h1 h2
    simp only [trackCell]
    rw [if_neg h1, h2]

/-- Witness for C5 at the range cell "3-4". -/
theorem C5_point_cell_chain_witness :
    pyFloat "3-4" = none ∧ reRangeMatch "3-4" = some "3" ∧
    parsePointCell "3-4" = pyFloat "3" :=
  ⟨by decide, by decide,
   C5_point_cell_chain.2.1 "3-4" "3" (by decide) (by decide)⟩

/-- C6 counterexample: a well-formed single-cell table whose stripped
text matches no marker pattern and carries no at-most phrase, but whose
column label contains the track-summary marker, DOES change the state and
the output: the track-summary branch of line 317 applies to every table
shape, so `step` stores a parsed (all-zero) `Track` and `parse_moon`
returns it — refuting "causes no state change and no output". -/
theorem C6_counterexample :
    (trackColCellTable.rows.length = 1 ∧ trackColCellTable.columns.length = 1 ∧
      Table.wf trackColCellTable) ∧
    classifyMarker (pyStrip (cell00 trackColCellTable)) =
      MarkerKind.unrecognized ∧
    pyIn "לכל היותר" (pyStrip (cell00 trackColCellTable)) = false ∧
    step 0 initState trackColCellTable =
      Except.ok { initState with
        track := some (parse_track trackColCellTable 0).1 } ∧
    ({ initState with track := some (parse_track trackColCellTable 0).1 }
      : PState) ≠ initState ∧
    parse_moon [trackColCellTable] 0 =
      Except.ok (some (Track.mk 0 0 0 0 0 0 0 []), [], []) := by
  refine ⟨⟨rfl, rfl, by decide⟩, by decide, by decide, by decide, by decide, by decide⟩

/-- C6 (amended): a single-cell table whose stripped text matches no
recognized marker pattern and none of whose column labels contains the
track-summary marker causes no state change and no output, unless the
text contains the at-most phrase while no max-courses threshold is set,
in which case the scan aborts with the unimplemented-policy error.  (A
single-cell table whose column label does carry the track-summary marker
is instead consumed by the track-summary branch.) -/
theorem C6_unrecognized_single_cell (tid : Int) (s : PState) (t : Table)
    (h1 : t.rows.length = 1) (h2 : t.columns.length = 1) (hw : Table.wf t)
    (hmk : classifyMarker (pyStrip (cell00 t)) = MarkerKind.unrecognized)
    (htc : hasTrackCol t = false) :
    step tid s t =
      (if pyIn "לכל היותר" (pyStrip (cell00 t)) && natOptFalsy s.max_courses
       then Except.error MoonError.unimplementedMaxCourses
       else Except.ok s) := by
  rw [step_marker tid s t h1 h2, hmk]
  show common tid s t (pyStrip (cell00 t)) = _
  unfold common trackStep
  rw [htc]
  simp only [Bool.false_eq_true, if_false]
  show detailStep tid s t (pyStrip (cell00 t)) = _
  unfold detailStep
  rw [not_detail_of_single t h1 h2 hw]
  simp only [Bool.false_eq_true, if_false]

/-- Witness for C6 at an unrecognized text containing the at-most phrase,
from the empty state (no max-courses threshold set). -/
theorem C6_unrecognized_single_cell_witness :
    step 0 initState gibberishAtMostTable =
      (if pyIn "לכל היותר" (pyStrip (cell00 gibberishAtMostTable)) &&
          natOptFalsy initState.max_courses
       then Except.error MoonError.unimplementedMaxCourses
       else Except.ok initState) :=
  C6_unrecognized_single_cell 0 initState gibberishAtMostTable rfl rfl
    (by decide) (by decide) (by decide)

/-- C7: a course-detail data row yields `is_given_this_year = false`
exactly when the raw name cell contains the not-offered annotation; the
stored name is the raw name with all annotation occurrences removed, and
is untouched when the annotation is absent.  The second part ties every
course produced by `parse_course_details` to its data row. -/
theorem C7_not_offered_annotation :
    (∀ (hdrs row : List (Option String)) (c : Course) (rawName : String),
      cellOf hdrs row COURSE_NAME_HEB = Except.ok rawName →
      parseCourseRow hdrs row = Except.ok c →
      ((c.is_given_this_year = false) ↔ pyIn NOT_GIVEN_THIS_YEAR rawName = true) ∧
      c.name = pyReplaceEmpty rawName NOT_GIVEN_THIS_YEAR ∧
      (pyIn NOT_GIVEN_THIS_YEAR rawName = false → c.name = rawName)) ∧
    (∀ (t : Table) (cs : List Course), parse_course_details t = Except.ok cs →
      List.Forall₂ (fun r c => parseCourseRow (t.rows.headD []) r = Except.ok c)
        (t.rows.drop 1) cs) := by
  constructor
  · intro hdrs row c rawName hname h
    unfold parseCourseRow at h
    rw [hname] at h
    simp only [Bind.bind, Except.bind, pure, Except.pure] at h
    split at h
    case h_1 => simp at h
    case h_2 semS hsem =>
      split at h
      case h_1 => simp at h
      case h_2 sem hsem2 =>
        split at h
        case h_1 => simp at h
        case h_2 idS hid =>
          split at h
          case h_1 => simp at h
          case h_2 cid hcid =>
            split at h
            case h_1 => simp at h
            case h_2 hugS hhug =>
              split at h
              case h_1 => simp at h
              case h_2 hug hhug2 =>
                split at h
                case h_1 => simp at h
                case h_2 ptsS hpts =>
                  split at h
                  case h_1 => simp at h
                  case h_2 pts hpts2 =>
                    injection h with h
                    subst h
                    refine ⟨by simp, rfl, ?_⟩
                    intro hni
                    exact pyReplaceEmpty_eq_of_not_in rawName _ hni
  · intro t cs h
    simp only [parse_course_details] at h
    split at h
    · exact mapE_ok_forall₂ h
    · simp at h

/-- Witness for C7 at the sample data row carrying the annotation. -/
theorem C7_not_offered_annotation_witness :
    ((sampleCourse.is_given_this_year = false) ↔
      pyIn NOT_GIVEN_THIS_YEAR "תכנות (לא נלמד השנה)" = true) ∧
    sampleCourse.name = pyReplaceEmpty "תכנות (לא נלמד השנה)" NOT_GIVEN_THIS_YEAR ∧
    (pyIn NOT_GIVEN_THIS_YEAR "תכנות (לא נלמד השנה)" = false →
      sampleCourse.name = "תכנות (לא נלמד השנה)") :=
  C7_not_offered_annotation.1 sampleHdrs sampleRow sampleCourse
    "תכנות (לא נלמד השנה)" (by decide) (by decide)

/-- C8: inserting at-most-one marker tables anywhere in a document never
changes the returned (Track, courses, groups) triple when both the
original and the extended document scan without a fatal error — the
pending max-courses value reaches no output. -/
theorem C8_at_most_marker_invisible (tid : Int) (ds ds' : List Table)
    (r r' : Option Track × List Course × List CourseGroup)
    (hins : InsertedAtMost ds ds')
    (h : parse_moon ds tid = Except.ok r)
    (h' : parse_moon ds' tid = Except.ok r') : r = r' := by
  rcases hu : runTables tid initState ds with e | u
  · rw [parse_moon, hu] at h
    simp at h
  · rcases hu' : runTables tid initState ds' with e | u'
    · rw [parse_moon, hu'] at h'
      simp at h'
    · rw [parse_moon_eq_ok hu] at h
      rw [parse_moon_eq_ok hu'] at h'
      injection h with h
      injection h' with h'
      have hu'' : runTables tid (setMax initState none) ds' = Except.ok u' := hu'
      obtain ⟨m2, rfl⟩ := runTables_inserted tid hins initState none u u' hu hu''
      rw [← h, ← h']
      rfl

/-- Witness for C8: a year-marker document with and without a prepended
at-most-one marker yields the same (empty) result. -/
theorem C8_at_most_marker_invisible_witness :
    parse_moon [yearOneTable] 0 = Except.ok (none, [], []) ∧
    parse_moon [atMostOneTable, yearOneTable] 0 = Except.ok (none, [], []) ∧
    ((none, [], []) : Option Track × List Course × List CourseGroup) =
      (none, [], []) :=
  ⟨by decide, by decide,
   C8_at_most_marker_invisible 0 [yearOneTable] [atMostOneTable, yearOneTable]
     (none, [], []) (none, [], [])
     (InsertedAtMost.ins "אחד לכל היותר" (Or.inl rfl)
       (InsertedAtMost.keep yearOneTable InsertedAtMost.nil))
     (by decide) (by decide)⟩

/-- C9: rows labelled exactly with the additional-hug category are
recognized (their points go to the local `additional_hug` accumulator, not
to the `points_must` fallback) and that accumulator is never stored, so
the returned `Track` is unchanged under inserting such rows with any point
values. -/
theorem C9_additional_hug_invisible :
    (∀ (tid : Int) (cols : List String) (rs rs' : List (List (Option String))),
      InsertedHugRows rs rs' →
      (parse_track ⟨cols, rs⟩ tid).1 = (parse_track ⟨cols, rs'⟩ tid).1) ∧
    (∀ (st : TrackAcc × List (String × String)) (raw : String) (q : ℚ),
      raw ≠ "" → parsePointCell raw = some q →
      trackCell ADDITIONAL_HUG st (some raw) =
        ({ st.1 with additional_hug := st.1.additional_hug + q }, st.2)) := by
  constructor
  · intro tid cols rs rs' h
    exact parse_track_inserted_hug tid cols h
  · intro st raw q hraw hq
    simp only [trackCell]
    rw [if_neg hraw, hq]
    show (applyCategory ADDITIONAL_HUG st.1 q, st.2) = _
    unfold applyCategory
    rw [if_neg (by decide), if_neg (by decide), if_neg (by decide),
      if_neg (by decide), if_neg (by decide), if_neg (by decide),
      if_pos (by decide)]

unseal Rat.add Rat.mul in
/-- Witness for C9: dropping the sample additional-hug row leaves the
`Track` unchanged, and its cell goes to the hug accumulator. -/
theorem C9_additional_hug_invisible_witness :
    (parse_track ⟨["c0", "סה\x22כ נקודות בחוג"], []⟩ 0).1 =
      (parse_track ⟨["c0", "סה\x22כ נקודות בחוג"], [hugRowSample]⟩ 0).1 ∧
    trackCell ADDITIONAL_HUG (TrackAcc.init, []) (some "7") =
      ({ TrackAcc.init with
          additional_hug := TrackAcc.init.additional_hug + 7 }, []) :=
  ⟨C9_additional_hug_invisible.1 0 ["c0", "סה\x22כ נקודות בחוג"] [] [hugRowSample]
     (InsertedHugRows.ins hugRowSample (by decide) InsertedHugRows.nil),
   C9_additional_hug_invisible.2 (TrackAcc.init, []) "7" 7 (by decide) (by decide)⟩

/-- C10: on any successful run over well-formed tables, the returned
course list is the concatenation, in document order, of the non-empty
per-table course blocks; the groups correspond one-to-one and in order to
those blocks with exactly the block's course ids; hence every id in any
group occurs in the returned course list. -/
theorem C10_groups_partition_courses (tid : Int) (ts : List Table)
    (r : Option Track × List Course × List CourseGroup)
    (hw : ∀ t ∈ ts, Table.wf t) (h : parse_moon ts tid = Except.ok r) :
    r.2.1 = (detailBlocks ts).flatten ∧
    List.Forall₂ (fun (g : CourseGroup) (b : List Course) =>
      g.courses = b.map (fun c => c.id) ∧ b ≠ []) r.2.2 (detailBlocks ts) ∧
    (∀ g ∈ r.2.2, ∀ i ∈ g.courses, i ∈ r.2.1.map (fun c => c.id)) := by
  rcases hu : runTables tid initState ts with e | u
  · rw [parse_moon, hu] at h
    simp at h
  · rw [parse_moon_eq_ok hu] at h
    injection h with h
    subst h
    obtain ⟨gs2, h1, h2, h3⟩ := runTables_blocks tid ts initState u hw hu
    have h1' : u.courses = (detailBlocks ts).flatten := by simpa using h1
    have h2' : u.groups = gs2 := by simpa using h2
    refine ⟨h1', by rw [show (u.track.map fun tr => { tr with groups := u.groups },
      u.courses, u.groups).2.2 = u.groups from rfl, h2']; exact h3, ?_⟩
    intro g hg i hi
    have hg2 : g ∈ gs2 := by rw [← h2']; exact hg
    obtain ⟨b, hb, hgb, _⟩ := forall₂_mem_left h3 hg2
    rw [hgb] at hi
    obtain ⟨cse, hcse, rfl⟩ := List.mem_map.mp hi
    refine List.mem_map.mpr ⟨cse, ?_, rfl⟩
    show cse ∈ u.courses
    rw [h1']
    exact List.mem_flatten_of_mem hb hcse

/-- Witness for C10 on the minimal document with one course-detail
table. -/
theorem C10_groups_partition_courses_witness :
    ((none, [sampleCourse], [sampleGroup]) :
        Option Track × List Course × List CourseGroup).2.1 =
      (detailBlocks sampleDoc).flatten ∧
    List.Forall₂ (fun (g : CourseGroup) (b : List Course) =>
      g.courses = b.map (fun c => c.id) ∧ b ≠ [])
      ((none, [sampleCourse], [sampleGroup]) :
        Option Track × List Course × List CourseGroup).2.2
      (detailBlocks sampleDoc) ∧
    (∀ g ∈ ((none, [sampleCourse], [sampleGroup]) :
        Option Track × List Course × List CourseGroup).2.2,
      ∀ i ∈ g.courses,
        i ∈ ((none, [sampleCourse], [sampleGroup]) :
          Option Track × List Course × List CourseGroup).2.1.map
            (fun c => c.id)) :=
  C10_groups_partition_courses 7 sampleDoc (none, [sampleCourse], [sampleGroup])
    (by decide) (by decide)

end MoonSpec
